import Mathlib

/-!
Verification of the Questions Mentor backend (first-aid quiz application).

The development shallowly embeds the pure computational core of the Python
sources:

* `backend/utils.py` — `chunk_text`, `parse_question`, `search_similar_chunks`,
  `save_dashboard_results`;
* `backend/build_rag_index.py` — `chunk_text` (identical body, different default);
* `backend/pdf_to_quiz_mistral.py` — `split_text`;
* `backend/database.py` — `register_user`.

Python strings are modelled as `List Char`; Python functions that can raise
(`IndexError`) return `Option`; the `split_text` while-loop, whose termination
is part of what is being checked, is modelled with explicit fuel, `none`
meaning the loop has not finished within the given fuel; file and database
state is passed explicitly.
-/

namespace QuestionsMentor

/-- Python strings are modelled as lists of characters. -/
abbrev Str := List Char

/-! ## Chunkers -/

/-- Embeds `chunk_text` from `backend/utils.py` lines 57-68 (the copy in
`backend/build_rag_index.py` lines 39-50 has the same body, only a different
default for `max_chars`):

`return [text[i:i+max_chars] for i in range(0, len(text), max_chars)]`

For `0 < max_chars` the comprehension takes the slices starting at positions
`0, L, 2L, ...`: the first `max_chars` characters followed by the chunks of the
remainder.  `range(0, 0, L)` is empty, so empty text yields an empty list.
(`max_chars = 0` would make Python's `range` raise `ValueError`; the claims
only concern `max_chars > 0`, and the model returns `[]` there.) -/
def chunk_text (text : Str) (maxChars : Nat) : List Str :=
  if h1 : text = [] then []
  else if h2 : maxChars = 0 then []
  else text.take maxChars :: chunk_text (text.drop maxChars) maxChars
termination_by text.length
decreasing_by
  have hp : 0 < text.length := List.length_pos.mpr h1
  simp only [List.length_drop]
  omega

/-! ## Theorems about `chunk_text` -/

/-- C1: for every text and every maximum chunk length `L > 0`, the fixed-width
chunker `chunk_text` returns a finite list of substrings whose in-order
concatenation is exactly the input, and every chunk has length at most `L`. -/
theorem chunk_text_cover (text : Str) (L : Nat) (hL : 0 < L) :
    (chunk_text text L).flatten = text ∧ ∀ c ∈ chunk_text text L, c.length ≤ L := by
  revert hL
  induction text, L using chunk_text.induct with
  | case1 L =>
      intro _
      simp [chunk_text]
  | case2 text h1 =>
      intro hL
      omega
  | case3 text L h1 h2 ih =>
      intro hL
      rcases ih hL with ⟨ihcat, ihlen⟩
      rw [chunk_text]
      simp only [dif_neg h1, dif_neg h2]
      constructor
      · simp [List.flatten_cons, ihcat, List.take_append_drop]
      · intro c hc
        rcases List.mem_cons.mp hc with hc | hc
        · subst hc
          simp only [List.length_take]
          omega
        · exact ihlen c hc

/-- Witness for C1 at the concrete input `"abcde"`, `L = 2`. -/
theorem chunk_text_cover_witness :
    (0 : Nat) < 2 ∧
      ((chunk_text ("abcde".toList) 2).flatten = "abcde".toList ∧
        ∀ c ∈ chunk_text ("abcde".toList) 2, c.length ≤ 2) :=
  ⟨by decide, chunk_text_cover ("abcde".toList) 2 (by decide)⟩

/-- ASCII whitespace, as recognised by Python `str.strip()` (space, tab,
newline, carriage return, vertical tab, form feed). -/
def pyIsSpace (c : Char) : Bool :=
  c == ' ' || c == '\t' || c == '\n' || c == '\r' || c == Char.ofNat 11 || c == Char.ofNat 12

/-- Python `str.strip()`: remove leading and trailing whitespace. -/
def strip (s : Str) : Str :=
  ((s.dropWhile pyIsSpace).reverse.dropWhile pyIsSpace).reverse

theorem strip_length_le (s : Str) : (strip s).length ≤ s.length := by
  unfold strip
  calc ((s.dropWhile pyIsSpace).reverse.dropWhile pyIsSpace).reverse.length
      = ((s.dropWhile pyIsSpace).reverse.dropWhile pyIsSpace).length := List.length_reverse _
    _ ≤ (s.dropWhile pyIsSpace).reverse.length :=
        (List.dropWhile_sublist _).length_le
    _ = (s.dropWhile pyIsSpace).length := List.length_reverse _
    _ ≤ s.length := (List.dropWhile_sublist _).length_le

/-- Python `s.rfind("\n")`: the highest index of a newline in `s`, `none`
standing for Python's `-1` when there is no newline. -/
def rfindNl : Str → Option Nat
  | [] => none
  | c :: rest =>
    match rfindNl rest with
    | some i => some (i + 1)
    | none => if c = '\n' then some 0 else none

theorem rfindNl_lt {s : Str} {i : Nat} (h : rfindNl s = some i) : i < s.length := by
  induction s generalizing i with
  | nil => simp [rfindNl] at h
  | cons c rest ih =>
      unfold rfindNl at h
      cases hr : rfindNl rest with
      | some j =>
          rw [hr] at h
          cases h
          have := ih hr
          simp only [List.length_cons]
          omega
      | none =>
          rw [hr] at h
          by_cases hc : c = '\n'
          · rw [if_pos hc] at h
            cases h
            simp
          · rw [if_neg hc] at h
            cases h

/-- The `idx` computed by one iteration of the `split_text` loop body:
`idx = text[:max_len].rfind("\n"); if idx == -1: idx = max_len`. -/
def splitIdx (text : Str) (maxLen : Nat) : Nat :=
  match rfindNl (text.take maxLen) with
  | none => maxLen
  | some i => i

/-- Embeds `split_text` from `backend/pdf_to_quiz_mistral.py` lines 56-75:

```
chunks = []
while len(text) > max_len:
    idx = text[:max_len].rfind("\n")
    if idx == -1:
        idx = max_len
    chunks.append(text[:idx].strip())
    text = text[idx:]
chunks.append(text.strip())
return chunks
```

The while-loop is modelled with explicit fuel, one unit per iteration:
`none` means the loop has not finished within `fuel` iterations (the loop
body itself never raises). -/
def split_text (fuel : Nat) (text : Str) (maxLen : Nat) : Option (List Str) :=
  match fuel with
  | 0 => none
  | fuel + 1 =>
    if maxLen < text.length then
      match split_text fuel (text.drop (splitIdx text maxLen)) maxLen with
      | none => none
      | some rest => some (strip (text.take (splitIdx text maxLen)) :: rest)
    else some [strip text]

theorem splitIdx_le (text : Str) (maxLen : Nat) : splitIdx text maxLen ≤ maxLen := by
  unfold splitIdx
  cases hr : rfindNl (text.take maxLen) with
  | none => simp
  | some i =>
      simp only
      have := rfindNl_lt hr
      simp only [List.length_take] at this
      omega

/-! ## Theorems about `split_text` -/

/-- C2 counterexample: on input `"ab\ncd"` with `maxLen = 3` the loop breaks at
the newline, `idx = 2`, and both `text[:2].strip()` and the final
`text.strip()` discard the newline: the output is `["ab", "cd"]`, whose
concatenation `"abcd"` is not the input — a character is dropped. -/
theorem split_text_cover_counterexample :
    split_text 3 ['a', 'b', '\n', 'c', 'd'] 3 = some [['a', 'b'], ['c', 'd']] ∧
      (List.flatten [['a', 'b'], ['c', 'd']] ≠ ['a', 'b', '\n', 'c', 'd']) := by
  constructor
  · rfl
  · decide

/-- C2 (amended): whenever `split_text` returns, every chunk has length at
most `maxLen`, and the chunks are, in order, the whitespace-stripped residues
of consecutive segments that partition the input text exactly (so the
concatenation of the chunks reproduces the input except for whitespace
discarded by `.strip()` at segment boundaries). -/
theorem split_text_strip_cover (fuel : Nat) (text : Str) (maxLen : Nat)
    (cs : List Str) (h : split_text fuel text maxLen = some cs) :
    (∀ c ∈ cs, c.length ≤ maxLen) ∧
      ∃ segs : List Str, segs.flatten = text ∧ cs = segs.map strip := by
  induction fuel generalizing text cs with
  | zero => simp [split_text] at h
  | succ n ih =>
      by_cases hlen : maxLen < text.length
      · rw [split_text, if_pos hlen] at h
        set idx : Nat := splitIdx text maxLen with hidx
        have hidx_le : idx ≤ maxLen := splitIdx_le text maxLen
        cases hrec : split_text n (text.drop idx) maxLen with
        | none => rw [hrec] at h; cases h
        | some rest =>
            rw [hrec] at h
            cases h
            rcases ih (text.drop idx) rest hrec with ⟨ihlen, segs', hflat, hmap⟩
            refine ⟨?_, text.take idx :: segs', ?_, ?_⟩
            · intro c hc
              rcases List.mem_cons.mp hc with hc | hc
              · subst hc
                calc (strip (text.take idx)).length
                    ≤ (text.take idx).length := strip_length_le _
                  _ ≤ idx := by simp [List.length_take]
                  _ ≤ maxLen := hidx_le
              · exact ihlen c hc
            · simp [List.flatten_cons, hflat, List.take_append_drop]
            · simp [hmap]
      · rw [split_text, if_neg hlen] at h
        cases h
        refine ⟨?_, [text], by simp, by simp⟩
        intro c hc
        rcases List.mem_singleton.mp hc with rfl
        calc (strip text).length ≤ text.length := strip_length_le _
          _ ≤ maxLen := by omega

/-- Witness for C2 (amended) at the concrete input `"ab\ncd"`, `maxLen = 3`,
`fuel = 3`. -/
theorem split_text_strip_cover_witness :
    (∀ c ∈ [['a', 'b'], ['c', 'd']], List.length c ≤ 3) ∧
      ∃ segs : List Str, segs.flatten = ['a', 'b', '\n', 'c', 'd'] ∧
        [['a', 'b'], ['c', 'd']] = segs.map strip :=
  split_text_strip_cover 3 ['a', 'b', '\n', 'c', 'd'] 3 [['a', 'b'], ['c', 'd']] rfl

/-- C3: `split_text` does not always terminate.  On `"\naa"` with
`maxLen = 2` the window is `"\na"`, `rfind` returns `0`, so `idx = 0`,
`text[idx:]` is the whole text and the loop runs forever: no amount of fuel
makes the model return.  (`chunk_text`, by contrast, is a total function in
this development, settling its half of the claim.) -/
theorem split_text_loops_forever :
    ∀ fuel : Nat, split_text fuel ['\n', 'a', 'a'] 2 = none := by
  intro fuel
  induction fuel with
  | zero => rfl
  | succ n ih =>
      rw [split_text]
      have hd : List.drop (splitIdx ['\n', 'a', 'a'] 2) ['\n', 'a', 'a'] = ['\n', 'a', 'a'] :=
        rfl
      rw [hd, ih]
      rfl

/-! ## Theorems about empty input (C4) -/

/-- C4 counterexample: on the empty string, `chunk_text` iterates over
`range(0, 0, 1200)`, which is empty, so it returns the empty list — not a
one-element list containing the empty chunk. -/
theorem chunk_text_empty_counterexample :
    chunk_text [] 1200 = [] ∧ chunk_text [] 1200 ≠ [([] : Str)] := by
  have h : chunk_text [] 1200 = [] := by simp [chunk_text]
  exact ⟨h, by rw [h]; simp⟩

/-- C4 (amended): on empty input, `split_text` returns a single empty chunk,
while `chunk_text` returns an empty list (no chunks at all). -/
theorem empty_text_chunking (L fuel : Nat) (hL : 0 < L) (hfuel : 0 < fuel) :
    chunk_text [] L = [] ∧ split_text fuel [] L = some [[]] := by
  constructor
  · simp [chunk_text]
  · cases fuel with
    | zero => omega
    | succ n => rfl

/-- Witness for C4 (amended) at `L = 1200`, `fuel = 1`. -/
theorem empty_text_chunking_witness :
    chunk_text [] 1200 = [] ∧ split_text 1 [] 1200 = some [[]] :=
  empty_text_chunking 1200 1 (by decide) (by decide)

/-! ## parse_question (`backend/utils.py` lines 118-149) -/

/-- Python `raw.split("\n")`. -/
def splitNl : Str → List Str
  | [] => [[]]
  | c :: rest =>
    match splitNl rest with
    | [] => [[c]]
    | h :: t => if c = '\n' then [] :: h :: t else (c :: h) :: t

/-- Python substring containment, `needle in hay`. -/
def containsSub (needle : Str) : Str → Bool
  | [] => needle.isEmpty
  | c :: t => needle.isPrefixOf (c :: t) || containsSub needle t

/-- `lines = [line.strip() for line in raw.split("\n") if line.strip()]`:
the stripped, non-blank lines of the raw text. -/
def pyLines (raw : Str) : List Str :=
  ((splitNl raw).map strip).filter (fun l => !l.isEmpty)

/-- One of the four choice labels `A`-`D`. -/
def isLabelChar (c : Char) : Bool :=
  c == 'A' || c == 'B' || c == 'C' || c == 'D'

/-- `l.startswith(("A)", "B)", "C)", "D)"))`: the line is a choice line. -/
def isChoiceLine : Str → Bool
  | c :: ')' :: _ => isLabelChar c
  | _ => false

/-- `"Bonne réponse" in l or "Réponse" in l`: the line is a correct-answer
marker line. -/
def isMarkerLine (l : Str) : Bool :=
  containsSub (("Bonne réponse").toList) l || containsSub (("Réponse").toList) l

/-- `correct_line = next((l for l in lines if "Bonne réponse" in l or
"Réponse" in l), "")`. -/
def correct_line (raw : Str) : Str :=
  ((pyLines raw).find? isMarkerLine).getD []

/-- `re.search(r"([A-D]\))\s*(.+)", line)`, returning `group(1)`'s letter.
`re.search` scans left to right, so it succeeds at the leftmost occurrence of
a label `X)` (`X` one of `A`-`D`) that still has at least one character after
the parenthesis (`\s*` may be empty, but `(.+)` needs one character; the line
contains no newline, so `.` matches any of its characters). -/
def reSearchLabel : Str → Option Char
  | [] => none
  | c :: rest =>
    if isLabelChar c && (match rest with | ')' :: _ :: _ => true | _ => false) then some c
    else reSearchLabel rest

/-- The claim-side reading of "the line contains a label pattern (one of A-D
followed by a closing parenthesis)": the leftmost occurrence of a substring
`X)` with `X` one of `A`-`D`, with no condition on what follows.  Compared
against the code's `reSearchLabel` in claim C6. -/
def findLabelSub : Str → Option Char
  | [] => none
  | c :: rest =>
    if isLabelChar c && (match rest with | ')' :: _ => true | _ => false) then some c
    else findLabelSub rest

/-- `choice.startswith(label)` where `label` is `c` followed by `)`. -/
def startsWithLabel (c : Char) (l : Str) : Bool :=
  List.isPrefixOf [c, ')'] l

/-- The structured question record produced by `parse_question`. -/
structure PyQuestion where
  question : Str
  choices : List Str
  answer : Str
deriving DecidableEq

/-- Embeds `parse_question` from `backend/utils.py` lines 118-149.  Python's
`next(gen, lines[0])` evaluates the default `lines[0]` before iterating, so an
input with no non-blank line raises `IndexError`; this is modelled as `none`.
Otherwise:

* `question`: first line containing `?`, else the first line;
* `choices`: every line starting with `A)`, `B)`, `C)` or `D)`;
* `answer`: from the first marker line (else `""`), `re.search` extracts a
  label; the answer is the first choice starting with that label, `""` when
  the search or the lookup fails. -/
def parse_question (raw : Str) : Option PyQuestion :=
  match pyLines raw with
  | [] => none
  | l0 :: rest =>
    some
      ⟨((l0 :: rest).find? (fun l => l.contains '?')).getD l0,
       (l0 :: rest).filter isChoiceLine,
       match reSearchLabel (((l0 :: rest).find? isMarkerLine).getD []) with
       | none => []
       | some c => (((l0 :: rest).filter isChoiceLine).find? (startsWithLabel c)).getD []⟩

/-! ## Theorems about `parse_question` -/

/-- C5 counterexample: on the empty string and on whitespace-only input,
`lines` is empty and the eagerly evaluated default `lines[0]` raises
`IndexError` — `parse_question` does not return a record. -/
theorem parse_question_empty_counterexample :
    parse_question [] = none ∧ parse_question [' ', '\t', '\n', ' '] = none := by
  constructor
  · rfl
  · rfl

/-- C5 (amended): on every raw text with at least one non-blank line,
`parse_question` returns a record, falling back to the first non-blank line
when no line contains a question mark, to an empty answer when no
correct-answer marker line exists, and to an empty choices list when no line
starts with a choice label.  (On empty or whitespace-only input the code
raises `IndexError` instead.) -/
theorem parse_question_total_amended (raw : Str) (h : pyLines raw ≠ []) :
    ∃ q : PyQuestion, parse_question raw = some q ∧
      ((pyLines raw).all (fun l => !l.contains '?') = true →
        q.question = (pyLines raw).getD 0 []) ∧
      ((pyLines raw).all (fun l => !isMarkerLine l) = true → q.answer = []) ∧
      ((pyLines raw).all (fun l => !isChoiceLine l) = true → q.choices = []) := by
  cases hl : pyLines raw with
  | nil => exact absurd hl h
  | cons l0 rest =>
      refine ⟨_, by rw [parse_question, hl], ?_, ?_, ?_⟩
      · intro hq
        simp only [List.all_eq_true, Bool.not_eq_true'] at hq
        have hfind : (l0 :: rest).find? (fun l => l.contains '?') = none :=
          List.find?_eq_none.mpr (by intro x hx; rw [hq x hx]; simp)
        show ((l0 :: rest).find? (fun l => l.contains '?')).getD l0 = (l0 :: rest).getD 0 []
        rw [hfind]
        rfl
      · intro hm
        simp only [List.all_eq_true, Bool.not_eq_true'] at hm
        have hfind : (l0 :: rest).find? isMarkerLine = none :=
          List.find?_eq_none.mpr (by intro x hx; rw [hm x hx]; simp)
        show (match reSearchLabel (((l0 :: rest).find? isMarkerLine).getD []) with
          | none => ([] : Str)
          | some c =>
              (((l0 :: rest).filter isChoiceLine).find? (startsWithLabel c)).getD []) = []
        rw [hfind]
        rfl
      · intro hc
        simp only [List.all_eq_true, Bool.not_eq_true'] at hc
        have hfilter : (l0 :: rest).filter isChoiceLine = [] :=
          List.filter_eq_nil_iff.mpr (by intro x hx; rw [hc x hx]; simp)
        exact hfilter

/-- Witness for C5 (amended): the raw text `"Bonjour."` has one non-blank
line, no question mark, no marker line and no choice line. -/
theorem parse_question_total_amended_witness :
    ∃ q : PyQuestion, parse_question (("Bonjour.").toList) = some q ∧
      ((pyLines (("Bonjour.").toList)).all (fun l => !l.contains '?') = true →
        q.question = (pyLines (("Bonjour.").toList)).getD 0 []) ∧
      ((pyLines (("Bonjour.").toList)).all (fun l => !isMarkerLine l) = true →
        q.answer = []) ∧
      ((pyLines (("Bonjour.").toList)).all (fun l => !isChoiceLine l) = true →
        q.choices = []) :=
  parse_question_total_amended (("Bonjour.").toList) (by decide)

/-- Helper: the `answer` field of any record returned by `parse_question` is
the label search on the correct-answer line followed by a lookup among the
choices, with empty-string fallbacks. -/
theorem parse_question_answer (raw : Str) (q : PyQuestion)
    (h : parse_question raw = some q) :
    q.answer =
      match reSearchLabel (correct_line raw) with
      | none => []
      | some c => (q.choices.find? (startsWithLabel c)).getD [] := by
  cases hl : pyLines raw with
  | nil => rw [parse_question, hl] at h; cases h
  | cons l0 rest =>
      rw [parse_question, hl] at h
      injection h with h
      subst h
      unfold correct_line
      rw [hl]

/-- C6 counterexample: in the raw text below, the correct-answer line
`"Bonne réponse : B)"` contains the label pattern `B)` and the choice
`"B) y"` starts with that label, yet the parsed answer is the empty string,
because `re.search(r"([A-D]\))\s*(.+)", ...)` also demands at least one
character after the parenthesis and therefore fails at end of line. -/
theorem answer_label_counterexample :
    findLabelSub (correct_line (("Q ?\nA) x\nB) y\nBonne réponse : B)").toList))
        = some 'B' ∧
      parse_question (("Q ?\nA) x\nB) y\nBonne réponse : B)").toList) =
        some ⟨("Q ?").toList, [("A) x").toList, ("B) y").toList], []⟩ ∧
      [("A) x").toList, ("B) y").toList].find? (startsWithLabel 'B')
        = some (("B) y").toList) ∧
      (("B) y").toList ≠ ([] : Str)) :=
  ⟨rfl, rfl, rfl, by decide⟩

/-- C6 (amended): the label pattern extracted from the correct-answer line is
the leftmost `A)`-`D)` occurrence that is followed by at least one further
character (as the pattern match requires); when it exists and some choice
starts with it, the answer is the full text of the first such choice; when
the pattern match fails, or no choice starts with the label (or there is no
correct-answer line at all, making `correct_line` empty), the answer is the
empty string. -/
theorem answer_label_lookup (raw : Str) (q : PyQuestion)
    (h : parse_question raw = some q) :
    (∀ c : Char, reSearchLabel (correct_line raw) = some c →
        (∀ ch : Str, q.choices.find? (startsWithLabel c) = some ch → q.answer = ch) ∧
        (q.choices.find? (startsWithLabel c) = none → q.answer = [])) ∧
      (reSearchLabel (correct_line raw) = none → q.answer = []) := by
  have ha := parse_question_answer raw q h
  constructor
  · intro c hc
    rw [hc] at ha
    have ha2 : q.answer = (q.choices.find? (startsWithLabel c)).getD [] := ha
    constructor
    · intro ch hch
      rw [ha2, hch]
      rfl
    · intro hn
      rw [ha2, hn]
      rfl
  · intro hn
    rw [hn] at ha
    exact ha

/-- Witness for C6 (amended) at the raw text
`"Q ?\nA) x\nB) Texte complet\nBonne réponse : B) Texte complet"`. -/
theorem answer_label_lookup_witness :
    (⟨("Q ?").toList, [("A) x").toList, ("B) Texte complet").toList],
        ("B) Texte complet").toList⟩ : PyQuestion).answer
      = ("B) Texte complet").toList :=
  ((answer_label_lookup
      (("Q ?\nA) x\nB) Texte complet\nBonne réponse : B) Texte complet").toList)
      ⟨("Q ?").toList, [("A) x").toList, ("B) Texte complet").toList],
        ("B) Texte complet").toList⟩
      rfl).1 'B' rfl).1 (("B) Texte complet").toList) rfl

/-- C10: the answer of every record returned by `parse_question` is either
the empty string or an element of the record's choices list. -/
theorem answer_mem_choices (raw : Str) (q : PyQuestion)
    (h : parse_question raw = some q) :
    q.answer = [] ∨ q.answer ∈ q.choices := by
  have ha := parse_question_answer raw q h
  cases hs : reSearchLabel (correct_line raw) with
  | none => rw [hs] at ha; exact Or.inl ha
  | some c =>
      rw [hs] at ha
      have ha2 : q.answer = (q.choices.find? (startsWithLabel c)).getD [] := ha
      cases hf : q.choices.find? (startsWithLabel c) with
      | none =>
          left
          rw [ha2, hf]
          rfl
      | some ch =>
          right
          have hm := List.mem_of_find?_eq_some hf
          have ha3 : q.answer = ch := by rw [ha2, hf]; rfl
          rw [ha3]
          exact hm

/-- Witness for C10: on a raw text with a well-formed correct-answer line,
the parsed answer is a member of the parsed choices. -/
theorem answer_mem_choices_witness :
    (⟨("Q ?").toList, [("A) x").toList, ("B) Texte complet").toList],
        ("B) Texte complet").toList⟩ : PyQuestion).answer = [] ∨
      (⟨("Q ?").toList, [("A) x").toList, ("B) Texte complet").toList],
          ("B) Texte complet").toList⟩ : PyQuestion).answer ∈
        (⟨("Q ?").toList, [("A) x").toList, ("B) Texte complet").toList],
            ("B) Texte complet").toList⟩ : PyQuestion).choices :=
  answer_mem_choices
    (("Q ?\nA) x\nB) Texte complet\nBonne réponse : B) Texte complet").toList)
    ⟨("Q ?").toList, [("A) x").toList, ("B) Texte complet").toList],
      ("B) Texte complet").toList⟩
    rfl

/-! ## save_dashboard_results (`backend/utils.py` lines 205-235) -/

/-- A quiz session record as appended by `save_dashboard_results`; `A` is the
type of the `answers` payload (a list of per-question dictionaries in the
source, kept abstract here). -/
structure SessionRecord (A : Type) where
  level : Str
  score : Int
  total : Int
  answers : A
  timestamp : Str

/-- Embeds `save_dashboard_results` from `backend/utils.py` lines 205-235:
read the whole persisted list from `dashboard_results.json` (an absent file,
modelled by `none`, reads as `[]`), append one record carrying the supplied
fields plus the current timestamp, and rewrite the whole list.  The file
state is passed explicitly; `now` is the timestamp taken at call time. -/
def save_dashboard_results {A : Type} (file : Option (List (SessionRecord A)))
    (level : Str) (score total : Int) (answers : A) (now : Str) :
    List (SessionRecord A) :=
  (file.getD []) ++ [⟨level, score, total, answers, now⟩]

/-- C8: appending two session records sequentially yields exactly the prior
log followed by the two records in insertion order, each carrying exactly the
supplied level, score, total and answers plus its timestamp; in particular,
starting from an absent file the log then holds exactly 2 records. -/
theorem save_dashboard_results_append (A : Type)
    (file : Option (List (SessionRecord A)))
    (l1 l2 : Str) (s1 t1 s2 t2 : Int) (a1 a2 : A) (ts1 ts2 : Str) :
    save_dashboard_results
        (some (save_dashboard_results file l1 s1 t1 a1 ts1)) l2 s2 t2 a2 ts2
      = file.getD [] ++ [⟨l1, s1, t1, a1, ts1⟩, ⟨l2, s2, t2, a2, ts2⟩] ∧
    (save_dashboard_results
        (some (save_dashboard_results none l1 s1 t1 a1 ts1))
        l2 s2 t2 a2 ts2).length = 2 := by
  constructor
  · simp [save_dashboard_results]
  · simp [save_dashboard_results]

/-! ## register_user (`backend/database.py` lines 40-67) -/

/-- A row of the `users` table (`id` omitted: it is auto-generated and never
read by the functions under verification). -/
structure UserRow where
  username : Str
  password : Str
  role : Str
  fullname : Str
  email : Str
deriving DecidableEq

/-- Embeds `register_user` from `backend/database.py` lines 40-67: `INSERT`
into a table whose `username` column is declared `UNIQUE`.  SQLite raises
`IntegrityError` exactly when the inserted username is already present; the
function catches it and returns `False` leaving the table unchanged,
otherwise the row is committed and it returns `True`.  The table state is
passed explicitly; the result is the returned boolean with the new state. -/
def register_user (db : List UserRow)
    (username password role fullname email : Str) : Bool × List UserRow :=
  if db.any (fun row => row.username == username) then (false, db)
  else (true, db ++ [⟨username, password, role, fullname, email⟩])

/-- C9: registering a username that is not already present succeeds (`True`),
and immediately registering the same username again — with any details —
fails (`False`); the collision is reported as a boolean result, not as an
exception. -/
theorem register_user_twice (db : List UserRow)
    (u p r f e p2 r2 f2 e2 : Str) (h : ∀ row ∈ db, row.username ≠ u) :
    (register_user db u p r f e).1 = true ∧
      (register_user (register_user db u p r f e).2 u p2 r2 f2 e2).1 = false := by
  have hany : db.any (fun row => row.username == u) = false := by
    simp only [List.any_eq_false, beq_iff_eq]
    exact h
  have h1 : register_user db u p r f e = (true, db ++ [⟨u, p, r, f, e⟩]) := by
    simp [register_user, hany]
  rw [h1]
  refine ⟨rfl, ?_⟩
  simp [register_user, List.any_append]

/-- Witness for C9: registering `alice` twice on an empty table. -/
theorem register_user_twice_witness :
    (register_user [] (("alice").toList) (("pw").toList)
        (("grand_public").toList) (("Alice A").toList) (("a@x.fr").toList)).1
      = true ∧
    (register_user
        (register_user [] (("alice").toList) (("pw").toList)
          (("grand_public").toList) (("Alice A").toList) (("a@x.fr").toList)).2
        (("alice").toList) (("pw2").toList) (("formateur").toList)
        (("Alice B").toList) (("b@x.fr").toList)).1 = false :=
  register_user_twice [] (("alice").toList) (("pw").toList)
    (("grand_public").toList) (("Alice A").toList) (("a@x.fr").toList)
    (("pw2").toList) (("formateur").toList) (("Alice B").toList)
    (("b@x.fr").toList) (by simp)

/-! ## Retriever (`backend/utils.py` lines 94-115) -/

/-- An embedding vector; FAISS works over floats, modelled as rationals so
that distances are exact and decidable. -/
abbrev Vec := List ℚ

/-- Squared Euclidean (L2) distance, the metric of `faiss.IndexFlatL2`
(`build_rag_index.py` line 75 builds the persisted index with it). -/
def l2dist (u v : Vec) : ℚ :=
  (List.zipWith (fun a b => (a - b) ^ 2) u v).sum

/-- Modelled from the spec: `faiss_index.search(query_vector, top_k)` is the
FAISS library, not part of `src/`.  Per the spec (§4.3), the search over the
persisted `IndexFlatL2` returns the positional indices of the stored vectors
nearest to the query — `top_k` of them when the index holds at least that
many, else all of them — in distance-ascending order. -/
def faissSearch (vectors : List Vec) (qv : Vec) (topK : Nat) : List Nat :=
  ((List.range vectors.length).mergeSort
      (fun i j =>
        decide (l2dist qv (vectors.getD i []) ≤ l2dist qv (vectors.getD j [])))).take topK

/-- Embeds `search_similar_chunks` from `backend/utils.py` lines 102-115:
embed the query, search the index, and return the chunk texts at the returned
positional indices.  The persisted index (`faiss_index`) and the parallel
chunk list (`chunks_data`), both loaded once at module import, are passed
explicitly, and the external embedding model is an abstract function. -/
def search_similar_chunks (vectors : List Vec) (chunksData : List Str)
    (embed : Str → Vec) (query : Str) (topK : Nat) : List Str :=
  (faissSearch vectors (embed query) topK).map (fun i => chunksData.getD i [])

/-- Reading a list back at the positions `0, ..., length - 1` reproduces it. -/
theorem map_getD_range {α : Type} (l : List α) (d : α) :
    (List.range l.length).map (fun i => l.getD i d) = l := by
  induction l with
  | nil => rfl
  | cons a t ih =>
      rw [List.length_cons, List.range_succ_eq_map]
      simp only [List.map_cons, List.map_map, List.getD_cons_zero, Function.comp_def,
        List.getD_cons_succ]
      rw [ih]

/-- C7: under the index invariant (as many stored vectors as stored chunks),
`search_similar_chunks` returns `K` chunk texts when `K` is at most the
number of indexed chunks and all of them otherwise (`min K n` in both cases);
the returned positional indices are in non-decreasing distance order; and
when `K` is at least the number of chunks the result is a permutation of the
whole chunk list. -/
theorem search_similar_chunks_spec (vectors : List Vec) (chunksData : List Str)
    (embed : Str → Vec) (query : Str) (topK : Nat)
    (halign : vectors.length = chunksData.length) :
    (search_similar_chunks vectors chunksData embed query topK).length
        = min topK chunksData.length ∧
      (faissSearch vectors (embed query) topK).Pairwise
        (fun i j => l2dist (embed query) (vectors.getD i [])
          ≤ l2dist (embed query) (vectors.getD j [])) ∧
      (chunksData.length ≤ topK →
        (search_similar_chunks vectors chunksData embed query topK).Perm
          chunksData) := by
  set qv : Vec := embed query with hqv
  set le : Nat → Nat → Bool := fun i j =>
    decide (l2dist qv (vectors.getD i []) ≤ l2dist qv (vectors.getD j []))
    with hle
  refine ⟨?_, ?_, ?_⟩
  · simp only [search_similar_chunks, faissSearch, List.length_map,
      List.length_take, List.length_mergeSort, List.length_range]
    rw [halign]
  · have htrans : ∀ a b c, le a b = true → le b c = true → le a c = true := by
      intro a b c hab hbc
      rw [hle] at hab hbc ⊢
      simp only [decide_eq_true_eq] at hab hbc ⊢
      exact le_trans hab hbc
    have htotal : ∀ a b, (le a b || le b a) = true := by
      intro a b
      rw [hle]
      simp only [Bool.or_eq_true, decide_eq_true_eq]
      exact le_total _ _
    have hsorted := List.sorted_mergeSort htrans htotal (List.range vectors.length)
    have hsub : (faissSearch vectors qv topK).Sublist
        ((List.range vectors.length).mergeSort le) := by
      unfold faissSearch
      exact List.take_sublist _ _
    have := List.Pairwise.sublist hsub hsorted
    refine this.imp ?_
    intro i j hij
    rw [hle] at hij
    simpa only [decide_eq_true_eq] using hij
  · intro hK
    have hlen : ((List.range vectors.length).mergeSort le).length ≤ topK := by
      rw [List.length_mergeSort, List.length_range, halign]
      exact hK
    have htake : faissSearch vectors qv topK
        = (List.range vectors.length).mergeSort le := by
      unfold faissSearch
      exact List.take_of_length_le hlen
    have hperm : (faissSearch vectors qv topK).Perm (List.range vectors.length) := by
      rw [htake]
      exact List.mergeSort_perm _ _
    have hmap := hperm.map (fun i => chunksData.getD i [])
    rw [halign, map_getD_range] at hmap
    exact hmap

/-- Witness for C7: a two-chunk index, queried with `topK = 2`. -/
theorem search_similar_chunks_spec_witness :
    (search_similar_chunks [[(3 : ℚ)], [(1 : ℚ)]]
        [("c0").toList, ("c1").toList] (fun _ => [(0 : ℚ)]) (("q").toList) 2).length
      = min 2 ([("c0").toList, ("c1").toList] : List Str).length ∧
      (faissSearch [[(3 : ℚ)], [(1 : ℚ)]] ((fun _ : Str => [(0 : ℚ)]) (("q").toList)) 2).Pairwise
        (fun i j =>
          l2dist ((fun _ : Str => [(0 : ℚ)]) (("q").toList))
              ([[(3 : ℚ)], [(1 : ℚ)]].getD i [])
            ≤ l2dist ((fun _ : Str => [(0 : ℚ)]) (("q").toList))
              ([[(3 : ℚ)], [(1 : ℚ)]].getD j [])) ∧
      (([("c0").toList, ("c1").toList] : List Str).length ≤ 2 →
        (search_similar_chunks [[(3 : ℚ)], [(1 : ℚ)]]
            [("c0").toList, ("c1").toList] (fun _ => [(0 : ℚ)])
            (("q").toList) 2).Perm [("c0").toList, ("c1").toList]) :=
  search_similar_chunks_spec [[(3 : ℚ)], [(1 : ℚ)]]
    [("c0").toList, ("c1").toList] (fun _ => [(0 : ℚ)]) (("q").toList) 2 rfl

end QuestionsMentor
